import Mathlib

/-!
Shallow embedding of the multiplexing engine of the SparkFun u-blox LARA-R6
Arduino library: the backlog buffer and its pruner, the incremental
two-pattern terminator matcher, the command dispatcher
(`sendCommand` / `waitForResponse` / `sendCommandWithResponse`), the buffered
poll demultiplexer, and the URC classification used by `processURCEvent`.

Bytes are modelled as `Char` (the wire is ASCII); buffers are `List Char`.
Machine time is abstracted out of the byte-processing loops: the transport
input is the finite list of bytes that arrive before the timeout expires, so
"loop until found or timeout" becomes "scan the list until found or it is
exhausted".  The 32-bit clock arithmetic of the timeout check itself is
modelled separately (`continueWait`, `noInputExit`) with explicit `% 2^32`.
-/

namespace LaraR6

/-- Carriage return, one of the two line delimiters. -/
def CR : Char := '\r'

/-- Line feed, the other line delimiter. -/
def LF : Char := '\n'

/-- The NUL byte; the engine remaps it to an ASCII zero before buffering. -/
def NUL : Char := Char.ofNat 0

/-- `#define _RXBuffSize 2056` — capacity of the backlog and RX buffers. -/
def RXBuffSize : Nat := 2056

/-- `#define LARA_R6_NUM_SOCKETS 6` — size of `_lastSocketProtocol`. -/
def numSockets : Nat := 6

/-- `const char LARA_R6_COMMAND_AT[] = "AT"`. -/
def COMMAND_AT : List Char := "AT".toList

/-- `const char LARA_R6_RESPONSE_OK[] = "\nOK\r\n"`. -/
def RESPONSE_OK : List Char := "\nOK\r\n".toList

/-- `const char LARA_R6_RESPONSE_ERROR[] = "\nERROR\r\n"`. -/
def RESPONSE_ERROR : List Char := "\nERROR\r\n".toList

/-- `const char LARA_R6_READ_SOCKET_URC[] = "+UUSORD:"`. -/
def READ_SOCKET_URC : List Char := "+UUSORD:".toList

/-- The twelve URC strings tested by `pruneBacklog`, in source order. -/
def urcKeepList : List (List Char) :=
  [ "+UUSORD:".toList, "+UUSORF:".toList, "+UUSOLI:".toList, "+UUSOCL:".toList
  , "+UULOC:".toList, "+UUSIMSTAT:".toList, "+UUHTTPCR:".toList
  , "+UUMQTTC:".toList, "+UUPING:".toList, "+CREG:".toList, "+CEREG:".toList
  , "+UUFTPCR:".toList ]

/-- `LARA_R6_error_t` (header, lines 270-282). -/
inductive LaraErr where
  | invalid | success | outOfMemory | timeout | unexpectedParam
  | unexpectedResponse | noResponse | deregistered | zeroReadLength | error
deriving DecidableEq, Repr

/-- Does list `l` start with `p`? (helper for the `strstr` model). -/
def beginsWith : List Char → List Char → Bool
  | _, [] => true
  | [], _ :: _ => false
  | c :: t, p :: ps => c == p && beginsWith t ps

/-- `strstr`: find the first occurrence of `p` in the haystack and return the
suffix that follows the occurrence (the code always advances the returned
pointer by `strlen(p)`). `none` models `strstr` returning `nullptr`. -/
def afterSub (p : List Char) : List Char → Option (List Char)
  | [] => if beginsWith [] p then some [] else none
  | c :: t =>
    if beginsWith (c :: t) p then some ((c :: t).drop p.length)
    else afterSub p t

/-- `strstr(ev, p) != nullptr`: `p` occurs somewhere inside `ev`. -/
def containsSub (ev p : List Char) : Bool := (afterSub p ev).isSome

/-- The keep test of `pruneBacklog`: the event contains one of the twelve
recognized URC strings (the code tests `strstr(event, URC) != nullptr`). -/
def isWantedURC (ev : List Char) : Bool :=
  urcKeepList.any (fun p => containsSub ev p)

/-- A line that *begins with* one of the recognized URC strings. -/
def beginsWithURC (ev : List Char) : Bool :=
  urcKeepList.any (fun p => beginsWith ev p)

/-- The delimiter set of every `strtok_r(_, "\r\n", _)` call in the engine. -/
def isDelim (c : Char) : Bool := c == '\r' || c == '\n'

/-- Worker for `tokenize`: `acc` is the (reversed) token being accumulated. -/
def tokenizeAux : List Char → List Char → List (List Char)
  | [], acc => if acc.isEmpty then [] else [acc.reverse]
  | c :: t, acc =>
    if isDelim c then
      if acc.isEmpty then tokenizeAux t []
      else acc.reverse :: tokenizeAux t []
    else tokenizeAux t (c :: acc)

/-- `strtok_r(buf, "\r\n", ...)` iterated to exhaustion: the maximal runs of
non-delimiter bytes, in order (`strtok` never returns an empty token). -/
def tokenize (l : List Char) : List (List Char) := tokenizeAux l []

/-- The NUL remap applied to every byte the engine buffers:
`if (c == '\0') c = '0';`. -/
def sanitizeChar (c : Char) : Char := if c = NUL then '0' else c

/-- Bytewise NUL remap of a whole byte sequence. -/
def sanitize (l : List Char) : List Char := l.map sanitizeChar

/-- The token loop of `pruneBacklog` (.cpp lines 6287-6309): walk the events,
`strcat` each wanted one plus `"\r\n"` onto the prune buffer, and add
`strlen(event) + 2` to the running backlog length. -/
def pruneLoop : List (List Char) → List Char → Nat → List Char × Nat
  | [], buf, len => (buf, len)
  | ev :: rest, buf, len =>
    if isWantedURC ev then
      pruneLoop rest (buf ++ ev ++ [CR, LF]) (len + ev.length + 2)
    else pruneLoop rest buf len

/-- `LARA_R6::pruneBacklog` (.cpp lines 6262-6327): tokenize the backlog,
keep the wanted events re-terminated with CR/LF, copy the prune buffer back.
Returns the new backlog bytes. -/
def pruneBacklog (backlog : List Char) : List Char :=
  (pruneLoop (tokenize backlog) [] 0).1

/-- The new `_laraResponseBacklogLength` computed by `pruneBacklog`. -/
def prunedLen (backlog : List Char) : Nat :=
  (pruneLoop (tokenize backlog) [] 0).2

/-- The per-byte state of the two-pattern terminator matcher:
`responseIndex`, `errorIndex`, `found`, `error`. -/
structure ScanState where
  ri : Nat
  ei : Nat
  found : Bool
  error : Bool
deriving DecidableEq, Repr

/-- The matcher state at loop entry. -/
def initScan : ScanState := ⟨0, 0, false, false⟩

/-- One byte of the terminator matcher exactly as `waitForResponse` codes it
(.cpp lines 5679-5701): response pattern first, then error pattern; on the
error pattern completing, both `error` and `found` are set. -/
def scanByte (rp ep : List Char) (s : ScanState) (c : Char) : ScanState :=
  let r :=
    if s.ri < rp.length ∧ rp.getD s.ri ' ' = c then
      { s with ri := s.ri + 1, found := s.found || decide (s.ri + 1 = rp.length) }
    else
      { s with ri := if s.ri < rp.length ∧ rp.getD 0 ' ' = c then 1 else 0 }
  if r.ei < ep.length ∧ ep.getD r.ei ' ' = c then
    { r with ei := r.ei + 1,
             found := r.found || decide (r.ei + 1 = ep.length),
             error := r.error || decide (r.ei + 1 = ep.length) }
  else
    { r with ei := if r.ei < ep.length ∧ ep.getD 0 ' ' = c then 1 else 0 }

/-- The same per-byte matcher as `sendCommandWithResponse` codes it
(.cpp lines 5803-5825): error pattern scanned first, then response pattern. -/
def scanByteSC (rp ep : List Char) (s : ScanState) (c : Char) : ScanState :=
  let r :=
    if s.ei < ep.length ∧ ep.getD s.ei ' ' = c then
      { s with ei := s.ei + 1,
               found := s.found || decide (s.ei + 1 = ep.length),
               error := s.error || decide (s.ei + 1 = ep.length) }
    else
      { s with ei := if s.ei < ep.length ∧ ep.getD 0 ' ' = c then 1 else 0 }
  if r.ri < rp.length ∧ rp.getD r.ri ' ' = c then
    { r with ri := r.ri + 1, found := r.found || decide (r.ri + 1 = rp.length) }
  else
    { r with ri := if r.ri < rp.length ∧ rp.getD 0 ' ' = c then 1 else 0 }

/-- The index-update rule in the words of the specification: "on a byte equal
to pattern[index] advance the index; on a mismatch set the index to 1 if the
byte equals pattern[0] and to 0 otherwise". -/
def specStepIdx (pat : List Char) (i : Nat) (c : Char) : Nat :=
  if pat.get? i = some c then i + 1
  else if pat.get? 0 = some c then 1 else 0

/-- The whole matcher step in the words of the specification: both patterns
advance by `specStepIdx` over the same byte, and "a match is reported when
the index reaches the pattern length" (the error pattern reporting sets the
error flag as well). -/
def specScanByte (rp ep : List Char) (s : ScanState) (c : Char) : ScanState :=
  let ri := specStepIdx rp s.ri c
  let ei := specStepIdx ep s.ei c
  { ri := ri, ei := ei,
    found := s.found || decide (ri = rp.length) || decide (ei = ep.length),
    error := s.error || decide (ei = ep.length) }

/-- What `waitForResponse` returns together with what it consumed and left
behind. `consumed` is the number of bytes read from the transport; `backlog`
is `_laraResponseBacklog` after the unconditional `pruneBacklog()` call. -/
structure WaitOut where
  result : LaraErr
  consumed : Nat
  backlog : List Char
deriving DecidableEq, Repr

/-- The read loop of `waitForResponse` (.cpp lines 5667-5718): while the
success pattern has not completed, take the next byte, feed the matcher, and
mirror the byte (NUL remapped) into the backlog unless the backlog is full.
The transport input is the list of bytes arriving before the timeout. -/
def waitLoop (rp ep : List Char) :
    List Char → ScanState → Nat → List Char → ScanState × Nat × List Char
  | [], s, n, bk => (s, n, bk)
  | c :: cs, s, n, bk =>
    if s.found then (s, n, bk)
    else
      waitLoop rp ep cs (scanByte rp ep s c) (n + 1)
        (if bk.length < RXBuffSize then bk ++ [sanitizeChar c] else bk)

/-- `LARA_R6::waitForResponse` (.cpp lines 5654-5736): drive the matcher over
the input, prune the backlog unconditionally, then return
`LARA_R6_ERROR_ERROR` / `LARA_R6_ERROR_SUCCESS` when a pattern completed and
`LARA_R6_ERROR_NO_RESPONSE` otherwise. -/
def waitForResponse (rp ep : List Char) (input bk0 : List Char) : WaitOut :=
  let out := waitLoop rp ep input initScan 0 bk0
  { result := if out.1.found then (if out.1.error then .error else .success)
              else .noResponse,
    consumed := out.2.1,
    backlog := pruneBacklog out.2.2 }

/-- What `sendCommandWithResponse` returns: the result, `charsRead`, the
capture buffer contents (`responseDest`, capacity-bounded), and the pruned
backlog. -/
structure CmdOut where
  result : LaraErr
  consumed : Nat
  captured : List Char
  backlog : List Char
deriving DecidableEq, Repr

/-- The read loop of `sendCommandWithResponse` (.cpp lines 5771-5842):
capture the byte if the capture buffer has room, count it, feed the matcher
(error pattern first), and mirror it into the backlog unless full. -/
def cmdLoop (rp ep : List Char) (destSize : Nat) :
    List Char → ScanState → Nat → List Char → List Char →
    ScanState × Nat × List Char × List Char
  | [], s, n, dest, bk => (s, n, dest, bk)
  | c :: cs, s, n, dest, bk =>
    if s.found then (s, n, dest, bk)
    else
      cmdLoop rp ep destSize cs (scanByteSC rp ep s c) (n + 1)
        (if dest.length < destSize then dest ++ [c] else dest)
        (if bk.length < RXBuffSize then bk ++ [sanitizeChar c] else bk)

/-- The pattern pair selected at the top of `sendCommandWithResponse`
(.cpp lines 5762-5769): the `LARA_R6_RESPONSE_OK_OR_ERROR` (`nullptr`)
sentinel switches on the generic `"\nOK\r\n"` / `"\nERROR\r\n"` pair; any
other expected response leaves `expectedError` null and `errorLen` at 0,
disabling the error pattern (modelled as the empty pattern). -/
def cmdPatterns (expected : Option (List Char)) : List Char × List Char :=
  match expected with
  | none => (RESPONSE_OK, RESPONSE_ERROR)
  | some r => (r, [])

/-- The complete run of the read loop of `sendCommandWithResponse` with the
selected patterns, from the initial matcher state. -/
def cmdRun (expected : Option (List Char)) (input bk0 : List Char)
    (destSize : Nat) : ScanState × Nat × List Char × List Char :=
  cmdLoop (cmdPatterns expected).1 (cmdPatterns expected).2 destSize input
    initScan 0 [] bk0

/-- The await half of `LARA_R6::sendCommandWithResponse`
(.cpp lines 5738-5868): drive the matcher, prune the backlog, then classify
(.cpp lines 5850-5867): a completed pattern gives `ERROR`/`SUCCESS`; with no
match, zero `charsRead` gives `NO_RESPONSE` and anything else
`UNEXPECTED_RESPONSE`. -/
def sendCommandWithResponse (expected : Option (List Char))
    (input bk0 : List Char) (destSize : Nat) : CmdOut :=
  let out := cmdRun expected input bk0 destSize
  { result := if out.1.found then (if out.1.error then .error else .success)
              else if out.2.1 = 0 then .noResponse else .unexpectedResponse,
    consumed := out.2.1,
    captured := out.2.2.1,
    backlog := pruneBacklog out.2.2.2 }

/-- What `sendCommand` leaves behind: the backlog after the pre-send drain,
and the bytes written to the transport. -/
structure SendOut where
  backlog : List Char
  written : List Char
deriving DecidableEq, Repr

/-- `LARA_R6::sendCommand` (.cpp lines 5878-5923): drain the bytes already
waiting on the transport (NUL remapped) into the backlog while it has room,
then write `"AT" + command + "\r\n"` when the `at` flag is set and the bare
`command` otherwise.  `fresh` is the list of bytes available within the
`_rxWindowMillis` inactivity window. -/
def sendCommand (command : List Char) (atFlag : Bool) (bk0 fresh : List Char) :
    SendOut :=
  let bk := if fresh.isEmpty then bk0
            else bk0 ++ (sanitize fresh).take (RXBuffSize - bk0.length)
  { backlog := bk,
    written := if atFlag then COMMAND_AT ++ command ++ [CR, LF] else command }

/-- The state touched by `bufferedPoll`: the backlog and the
`_bufferedPollReentrant` guard. -/
structure PollState where
  backlog : List Char
  reentrant : Bool
deriving DecidableEq, Repr

/-- `LARA_R6::bufferedPoll` (.cpp lines 195-314): bail out when re-entered;
otherwise move the backlog into the RX buffer and clear it, read fresh bytes
(NUL remapped, capacity-bounded) if the backlog had content or data is
available, tokenize the RX buffer, and hand every event to `processURCEvent`
(abstracted as `handler`), returning whether any event was handled.  The
returned list is the sequence of events passed to the handler.  Decoders are
modelled as pure (no nested commands adding new backlog content). -/
def bufferedPoll (handler : List Char → Bool) (st : PollState)
    (fresh : List Char) : Bool × List (List Char) × PollState :=
  if st.reentrant then (false, [], st)
  else
    let backlogLen := st.backlog.length
    if 0 < backlogLen ∨ ¬ fresh.isEmpty then
      let rx := st.backlog ++ (sanitize fresh).take (RXBuffSize - backlogLen)
      let evs := tokenize rx
      (evs.any handler, evs, ⟨[], false⟩)
    else (false, [], ⟨[], false⟩)

/-- `2^32`: the modulus of `unsigned long` clock arithmetic on the target. -/
def M32 : Nat := 2 ^ 32

/-- The loop-continuation test of `waitForResponse`
(`(timeIn + timeout) > millis()`, .cpp line 5667), with the addition and the
clock reduced mod `2^32` as on the hardware. -/
def continueWait (timeIn timeout now : Nat) : Bool :=
  decide ((timeIn + timeout) % M32 > now % M32)

/-- `waitForResponse` with no transport input, run against a clock that
started at `m0`: `trace` lists the elapsed times (in ms, from entry) at which
the loop condition is evaluated; the function returns the elapsed time at
which the loop gives up (and `waitForResponse` returns
`LARA_R6_ERROR_NO_RESPONSE`), or `none` if the trace ends first. -/
def noInputExit (m0 timeout : Nat) : List Nat → Option Nat
  | [] => none
  | e :: es =>
    if continueWait (m0 % M32) timeout (m0 + e) then noInputExit m0 timeout es
    else some e

/-- `sscanf`-style `%d`: skip whitespace, optional sign, a nonempty digit
run; returns the value and the rest of the input. -/
def scanInt (l : List Char) : Option (Int × List Char) :=
  let l := l.dropWhile (fun c => c == ' ' || c == '\t' || c == '\n' || c == '\r')
  match l with
  | '-' :: r =>
    let ds := r.takeWhile Char.isDigit
    if ds.isEmpty then none
    else some (-(ds.foldl (fun a c => a * 10 + (c.toNat - '0'.toNat)) 0 : Nat),
               r.dropWhile Char.isDigit)
  | '+' :: r =>
    let ds := r.takeWhile Char.isDigit
    if ds.isEmpty then none
    else some ((ds.foldl (fun a c => a * 10 + (c.toNat - '0'.toNat)) 0 : Nat),
               r.dropWhile Char.isDigit)
  | _ =>
    let ds := l.takeWhile Char.isDigit
    if ds.isEmpty then none
    else some ((ds.foldl (fun a c => a * 10 + (c.toNat - '0'.toNat)) 0 : Nat),
               l.dropWhile Char.isDigit)

/-- `sscanf(s, "%d,%d", ...) == 2`: two integers separated by a comma. -/
def scanTwoInts (l : List Char) : Option (Int × Int) :=
  match scanInt l with
  | none => none
  | some (a, r) =>
    match r with
    | ',' :: r2 => (scanInt r2).map (fun p => (a, p.1))
    | _ => none

/-- The head of the `+UUSORD` branch of `LARA_R6::processURCEvent`
(.cpp lines 317-348): find the URC string with `strstr`, skip spaces, parse
`"%d,%d"`.  When this returns `some (socket, length)` the code immediately
evaluates `_lastSocketProtocol[socket]` with no bounds check. -/
def processUUSORD (event : List Char) : Option (Int × Int) :=
  match afterSub READ_SOCKET_URC event with
  | none => none
  | some r => scanTwoInts (r.dropWhile (fun c => c == ' '))

/-- Declarative reading of the (amended) pruner contract: tokenize, keep the
events containing a recognized URC string, re-terminate each with CR/LF, in
order. -/
def specPrune (backlog : List Char) : List Char :=
  (((tokenize backlog).filter (fun ev => isWantedURC ev)).map
    (fun ev => ev ++ [CR, LF])).flatten

/-! ### Lemmas about tokenization -/

theorem tokenizeAux_nondelim (ev : List Char) (rest acc : List Char)
    (h : ∀ c ∈ ev, isDelim c = false) :
    tokenizeAux (ev ++ rest) acc = tokenizeAux rest (ev.reverse ++ acc) := by
  induction ev generalizing acc with
  | nil => simp
  | cons c t ih =>
    have hc : isDelim c = false := h c (by simp)
    simp only [List.cons_append, tokenizeAux, hc, Bool.false_eq_true, if_false]
    rw [show (t.append rest) = t ++ rest from rfl,
        ih (c :: acc) (fun x hx => h x (by simp [hx]))]
    simp

theorem tokenizeAux_delim (c : Char) (rest acc : List Char)
    (h : isDelim c = true) :
    tokenizeAux (c :: rest) acc =
      if acc.isEmpty then tokenizeAux rest []
      else acc.reverse :: tokenizeAux rest [] := by
  simp [tokenizeAux, h]

theorem tokenize_delim_cons (c : Char) (rest : List Char)
    (h : isDelim c = true) : tokenize (c :: rest) = tokenize rest := by
  simp [tokenize, tokenizeAux_delim c rest [] h]

theorem tokenize_line (ev : List Char) (d : Char) (rest : List Char)
    (hne : ev ≠ []) (h : ∀ c ∈ ev, isDelim c = false) (hd : isDelim d = true) :
    tokenize (ev ++ d :: rest) = ev :: tokenize rest := by
  unfold tokenize
  rw [tokenizeAux_nondelim ev (d :: rest) [] h,
      tokenizeAux_delim d rest (ev.reverse ++ []) hd]
  simp [hne]

theorem tokenizeAux_tokens_wf (l : List Char) :
    ∀ acc, (∀ c ∈ acc, isDelim c = false) →
    ∀ t ∈ tokenizeAux l acc, t ≠ [] ∧ ∀ c ∈ t, isDelim c = false := by
  induction l with
  | nil =>
    intro acc hacc t ht
    simp only [tokenizeAux] at ht
    split at ht
    · simp at ht
    · next he =>
      rw [List.mem_singleton] at ht
      subst ht
      constructor
      · intro h0
        rw [List.reverse_eq_nil_iff] at h0
        subst h0
        simp at he
      · intro x hx
        exact hacc x (List.mem_reverse.mp hx)
  | cons c cs ih =>
    intro acc hacc t ht
    by_cases hd : isDelim c
    · rw [tokenizeAux_delim c cs acc hd] at ht
      by_cases he : acc.isEmpty
      · rw [if_pos he] at ht
        exact ih [] (by simp) t ht
      · rw [if_neg he] at ht
        rcases List.mem_cons.mp ht with h1 | h1
        · subst h1
          constructor
          · intro h0
            rw [List.reverse_eq_nil_iff] at h0
            subst h0
            simp at he
          · intro x hx
            exact hacc x (List.mem_reverse.mp hx)
        · exact ih [] (by simp) t h1
    · have hd' : isDelim c = false := by simpa using hd
      simp only [tokenizeAux, hd', Bool.false_eq_true, if_false] at ht
      refine ih (c :: acc) ?_ t ht
      intro x hx
      rcases List.mem_cons.mp hx with h1 | h1
      · subst h1; exact hd'
      · exact hacc x h1

theorem tokens_wf (l : List Char) :
    ∀ t ∈ tokenize l, t ≠ [] ∧ ∀ c ∈ t, isDelim c = false :=
  tokenizeAux_tokens_wf l [] (by simp)

theorem flatten_lines_tokenize (toks : List (List Char))
    (h : ∀ t ∈ toks, t ≠ [] ∧ ∀ c ∈ t, isDelim c = false) :
    tokenize ((toks.map (fun ev => ev ++ [CR, LF])).flatten) = toks := by
  induction toks with
  | nil => rfl
  | cons t ts ih =>
    obtain ⟨hne, hfree⟩ := h t (by simp)
    have hstep : ((t :: ts).map (fun ev => ev ++ [CR, LF])).flatten =
        t ++ CR :: LF :: ((ts.map (fun ev => ev ++ [CR, LF])).flatten) := by
      simp
    rw [hstep, tokenize_line t CR _ hne hfree (by decide),
        tokenize_delim_cons LF _ (by decide),
        ih (fun t' ht' => h t' (by simp [ht']))]

/-! ### Lemmas about the pruner -/

theorem pruneLoop_acc (toks : List (List Char)) (buf : List Char) (len : Nat) :
    pruneLoop toks buf len =
      (buf ++ ((toks.filter (fun ev => isWantedURC ev)).map
          (fun ev => ev ++ [CR, LF])).flatten,
       len + (((toks.filter (fun ev => isWantedURC ev)).map
          (fun ev => ev ++ [CR, LF])).flatten).length) := by
  induction toks generalizing buf len with
  | nil => simp [pruneLoop]
  | cons ev rest ih =>
    by_cases hw : isWantedURC ev
    · simp only [pruneLoop, hw, if_true, List.filter_cons, List.map_cons,
        List.flatten_cons, ih]
      rw [Prod.mk.injEq]
      refine ⟨by simp [List.append_assoc], by simp; omega⟩
    · have hw' : isWantedURC ev = false := by simpa using hw
      simp [pruneLoop, hw', List.filter_cons, ih]

theorem pruneBacklog_eq (b : List Char) : pruneBacklog b = specPrune b := by
  unfold pruneBacklog specPrune
  rw [pruneLoop_acc]
  simp

theorem prunedLen_eq (b : List Char) : prunedLen b = (pruneBacklog b).length := by
  unfold prunedLen pruneBacklog
  rw [pruneLoop_acc]
  simp

theorem specPrune_nil_filter (b : List Char) (h : pruneBacklog b = []) :
    (tokenize b).filter (fun ev => isWantedURC ev) = [] := by
  rw [pruneBacklog_eq] at h
  unfold specPrune at h
  cases hx : (tokenize b).filter (fun ev => isWantedURC ev) with
  | nil => rfl
  | cons t ts => rw [hx] at h; simp at h

/-! ### Claim theorems about the pruner -/

/-- C8 (amended): the pruner tokenizes the backlog into CR/LF-delimited
lines and keeps a line if and only if it *contains* one of the recognized
URC strings (the code tests `strstr`, a substring match, not a
starts-with match); the kept lines are written back re-terminated with
CR/LF in their original order, and the backlog length is set to exactly the
byte count of the retained re-terminated lines. -/
theorem pruneBacklog_keeps_exactly (b : List Char) :
    pruneBacklog b = (((tokenize b).filter (fun ev => isWantedURC ev)).map
        (fun ev => ev ++ [CR, LF])).flatten ∧
    prunedLen b = (pruneBacklog b).length := by
  exact ⟨pruneBacklog_eq b, prunedLen_eq b⟩

/-- C8 counterexample: the line `"x+CREG:9"` does not *begin with* any
recognized URC string, yet the pruner keeps it (because `strstr` finds
`"+CREG:"` in its interior), so "keeps a line iff it begins with a
recognized prefix" is false on the code. -/
theorem pruneBacklog_keeps_non_urc_start :
    pruneBacklog ("x+CREG:9".toList ++ [CR, LF]) = "x+CREG:9".toList ++ [CR, LF] ∧
    beginsWithURC "x+CREG:9".toList = false := by
  constructor
  · rfl
  · rfl

/-- C5: pruning is idempotent — pruning a backlog that was just pruned
reproduces exactly the same bytes. -/
theorem pruneBacklog_idempotent (b : List Char) :
    pruneBacklog (pruneBacklog b) = pruneBacklog b := by
  rw [pruneBacklog_eq b, pruneBacklog_eq]
  unfold specPrune
  have hwf : ∀ t ∈ (tokenize b).filter (fun ev => isWantedURC ev),
      t ≠ [] ∧ ∀ c ∈ t, isDelim c = false :=
    fun t ht => tokens_wf b t (List.mem_of_mem_filter ht)
  rw [flatten_lines_tokenize _ hwf, List.filter_filter]
  simp [Bool.and_self]

/-- The retained lines of the 258-fold repetition of `"+CREG:\r"`. -/
theorem tokenize_replicate_creg (n : Nat) :
    tokenize ((List.replicate n ("+CREG:".toList ++ [CR])).flatten) =
      List.replicate n "+CREG:".toList := by
  induction n with
  | zero => rfl
  | succ n ih =>
    rw [List.replicate_succ, List.flatten_cons]
    have hstep : "+CREG:".toList ++ [CR] ++
        (List.replicate n ("+CREG:".toList ++ [CR])).flatten =
        "+CREG:".toList ++ CR ::
          (List.replicate n ("+CREG:".toList ++ [CR])).flatten := by
      simp
    rw [hstep, tokenize_line _ CR _ (by decide) (by decide) (by decide), ih,
        List.replicate_succ]

/-- C4 is violated by the pruner's rewrite: a backlog of 1806 bytes
(258 copies of `"+CREG:\r"`, well under the 2056-byte capacity, reachable
because every mirrored append is capacity-checked byte by byte) is rewritten
by `pruneBacklog` to 2064 bytes — each kept 6-byte line is re-terminated
with two bytes although it was delimited by one — overflowing `_pruneBuffer`
and `_laraResponseBacklog` and leaving
`_laraResponseBacklogLength > _RXBuffSize`. -/
theorem pruneBacklog_exceeds_capacity :
    ((List.replicate 258 ("+CREG:".toList ++ [CR])).flatten).length ≤ RXBuffSize ∧
    RXBuffSize < (pruneBacklog
      ((List.replicate 258 ("+CREG:".toList ++ [CR])).flatten)).length := by
  constructor
  · rw [List.length_flatten, List.map_replicate, List.sum_replicate,
        smul_eq_mul, show ("+CREG:".toList ++ [CR]).length = 7 from rfl]
    decide
  · rw [pruneBacklog_eq]
    unfold specPrune
    rw [tokenize_replicate_creg]
    have hfil : (List.replicate 258 "+CREG:".toList).filter
        (fun ev => isWantedURC ev) = List.replicate 258 "+CREG:".toList := by
      apply List.filter_eq_self.mpr
      intro a ha
      rw [List.eq_of_mem_replicate ha]
      decide
    rw [hfil, List.map_replicate, List.length_flatten, List.map_replicate,
        List.sum_replicate, smul_eq_mul,
        show ("+CREG:".toList ++ [CR, LF]).length = 8 from rfl]
    decide

/-! ### Claim theorems about the poll entry point, dispatcher and decoders -/

/-- C6: a nested `bufferedPoll` call while one invocation is already running
(`_bufferedPollReentrant == true`) returns false immediately, hands no event
to any decoder, and leaves the backlog and guard untouched. -/
theorem bufferedPoll_reentrant_noop (handler : List Char → Bool)
    (st : PollState) (fresh : List Char) (h : st.reentrant = true) :
    bufferedPoll handler st fresh = (false, [], st) := by
  simp [bufferedPoll, h]

/-- Witness for `bufferedPoll_reentrant_noop` at a concrete running state. -/
theorem bufferedPoll_reentrant_noop_witness :
    bufferedPoll (fun _ => true) ⟨"+CREG: 1\r\n".toList, true⟩ ['x'] =
      (false, [], ⟨"+CREG: 1\r\n".toList, true⟩) :=
  bufferedPoll_reentrant_noop (fun _ => true) ⟨"+CREG: 1\r\n".toList, true⟩
    ['x'] rfl

/-- C7 is violated at clock rollover: with the millisecond clock at
`2^32 - 1` on entry and a 1000 ms timeout, the loop guard
`(timeIn + timeout) > millis()` computes `(2^32 - 1 + 1000) % 2^32 = 999`,
which is not greater than `2^32 - 1`, so `waitForResponse` gives up at the
very first check — 0 ms elapsed, well before the 1000 ms timeout — and
returns `LARA_R6_ERROR_NO_RESPONSE`. -/
theorem waitForResponse_rollover_early_timeout :
    noInputExit (M32 - 1) 1000 [0] = some 0 ∧ (0 : Nat) < 1000 ∧
    (waitForResponse RESPONSE_OK RESPONSE_ERROR [] []).result =
      LaraErr.noResponse := by
  refine ⟨?_, by decide, rfl⟩
  rfl

/-- C2 counterexample: `waitForResponse` observing one byte (`'X'`) that
matches neither pattern returns `LARA_R6_ERROR_NO_RESPONSE`, although the
claimed taxonomy reserves `NoResponse` for zero bytes observed (it never
returns `UnexpectedResponse`; only `sendCommandWithResponse` does). -/
theorem waitForResponse_noResponse_despite_bytes :
    (waitForResponse RESPONSE_OK RESPONSE_ERROR ['X'] []).result =
      LaraErr.noResponse ∧
    0 < (waitForResponse RESPONSE_OK RESPONSE_ERROR ['X'] []).consumed := by
  refine ⟨rfl, ?_⟩
  decide

/-- C9 counterexample: with the AT flag clear, `sendCommand` writes the bare
command text with no CR/LF terminator, so "writes the command text followed
by the CR/LF line terminator" is false for that flag value. -/
theorem sendCommand_raw_lacks_terminator :
    (sendCommand "X".toList false [] []).written = ['X'] ∧
    (sendCommand "X".toList false [] []).written ≠ "X".toList ++ [CR, LF] := by
  refine ⟨rfl, ?_⟩
  decide

/-- C9 (amended): `sendCommand` first drains the bytes already waiting on
the transport into the backlog — NUL bytes remapped, append stopping at the
backlog capacity, previously retained bytes untouched — and then writes
`"AT" + command + "\r\n"` when the AT flag is set and the bare `command`
(no terminator) otherwise; it awaits no response. -/
theorem sendCommand_drains_then_writes (command : List Char) (atFlag : Bool)
    (bk0 fresh : List Char) (h : bk0.length ≤ RXBuffSize) :
    (sendCommand command atFlag bk0 fresh).written =
      (if atFlag then COMMAND_AT ++ command ++ [CR, LF] else command) ∧
    (sendCommand command atFlag bk0 fresh).backlog =
      bk0 ++ (sanitize fresh).take (RXBuffSize - bk0.length) ∧
    (sendCommand command atFlag bk0 fresh).backlog.length ≤ RXBuffSize := by
  refine ⟨rfl, ?_, ?_⟩
  · unfold sendCommand
    by_cases hf : fresh.isEmpty
    · have : fresh = [] := by simpa using hf
      subst this
      simp [sanitize]
    · simp [hf]
  · unfold sendCommand
    by_cases hf : fresh.isEmpty
    · simpa [hf] using h
    · simp only [hf, Bool.false_eq_true, if_false, List.length_append]
      have := List.length_take_le (RXBuffSize - bk0.length) (sanitize fresh)
      omega

/-- Witness for `sendCommand_drains_then_writes`: concrete command, a NUL in
the drained bytes, and an empty starting backlog. -/
theorem sendCommand_drains_then_writes_witness :
    (sendCommand "+CSQ".toList true [] ['a', NUL]).written =
      (if true then COMMAND_AT ++ "+CSQ".toList ++ [CR, LF]
       else "+CSQ".toList) ∧
    (sendCommand "+CSQ".toList true [] ['a', NUL]).backlog =
      [] ++ (sanitize ['a', NUL]).take (RXBuffSize - ([] : List Char).length) ∧
    (sendCommand "+CSQ".toList true [] ['a', NUL]).backlog.length ≤
      RXBuffSize :=
  sendCommand_drains_then_writes "+CSQ".toList true [] ['a', NUL] (by decide)

/-- C10 is violated by `processURCEvent`: the line `"+UUSORD: 6,10"` parses
as two integers with socket id 6, which is outside the
`_lastSocketProtocol[LARA_R6_NUM_SOCKETS]` table bounds (indices 0..5), yet
the code evaluates `_lastSocketProtocol[socket]` with no bounds check. -/
theorem uusord_socket_unchecked :
    processUUSORD ("+UUSORD: 6,10".toList) = some (6, 10) ∧
    ¬ ((6 : Int) < (numSockets : Int)) := by
  refine ⟨rfl, ?_⟩
  decide

/-! ### The matcher step follows the specified algorithm -/

theorem get?_getD (pat : List Char) (i : Nat) (h : i < pat.length) :
    pat.get? i = some (pat.getD i ' ') := by
  rw [List.getD_eq_get?, List.get?_eq_get h]
  rfl

theorem specStepIdx_hit (pat : List Char) (i : Nat) (c : Char)
    (h : i < pat.length) (hc : pat.getD i ' ' = c) :
    specStepIdx pat i c = i + 1 := by
  unfold specStepIdx
  rw [get?_getD pat i h, if_pos (show some (pat.getD i ' ') = some c by rw [hc])]

theorem specStepIdx_miss (pat : List Char) (i : Nat) (c : Char)
    (h : i < pat.length) (hc : ¬ pat.getD i ' ' = c) :
    specStepIdx pat i c = if i < pat.length ∧ pat.getD 0 ' ' = c then 1 else 0 := by
  have h0 : 0 < pat.length := Nat.lt_of_le_of_lt (Nat.zero_le i) h
  unfold specStepIdx
  rw [get?_getD pat i h, get?_getD pat 0 h0,
      if_neg (show ¬ some (pat.getD i ' ') = some c from
        fun hh => hc (Option.some.inj hh))]
  by_cases hc0 : pat.getD 0 ' ' = c
  · rw [if_pos (show some (pat.getD 0 ' ') = some c by rw [hc0]),
        if_pos (show i < pat.length ∧ pat.getD 0 ' ' = c from ⟨h, hc0⟩)]
  · rw [if_neg (show ¬ some (pat.getD 0 ' ') = some c from
          fun hh => hc0 (Option.some.inj hh)),
        if_neg (show ¬ (i < pat.length ∧ pat.getD 0 ' ' = c) from
          fun hh => hc0 hh.2)]

theorem stepIdx_miss_not_complete (pat : List Char) (i : Nat) (c : Char)
    (h : i < pat.length) (hc : ¬ pat.getD i ' ' = c) :
    decide (specStepIdx pat i c = pat.length) = false := by
  have h0 : 0 < pat.length := Nat.lt_of_le_of_lt (Nat.zero_le i) h
  rw [specStepIdx_miss pat i c h hc]
  by_cases hc0 : i < pat.length ∧ pat.getD 0 ' ' = c
  · rw [if_pos hc0]
    apply decide_eq_false
    intro h1
    have hi0 : i = 0 := by omega
    subst hi0
    exact hc hc0.2
  · rw [if_neg hc0]
    apply decide_eq_false
    omega

/-- C3: byte for byte, both copies of the terminator matcher (the one in
`waitForResponse`, response pattern scanned first, and the one in
`sendCommandWithResponse`, error pattern scanned first) update each
pattern's index exactly by the specified rule — advance on a byte equal to
`pattern[index]`, restart at 1 on a mismatching byte equal to `pattern[0]`
and at 0 otherwise — and report a match exactly when an index reaches its
pattern's length, the error pattern's completion flagging `error` (the
hypotheses say the indices have not yet completed, which holds throughout
the scan since the loop stops at the first completion). -/
theorem matcher_follows_spec (rp ep : List Char) (s : ScanState) (c : Char)
    (hr : s.ri < rp.length) (he : s.ei < ep.length) :
    scanByte rp ep s c = specScanByte rp ep s c ∧
    scanByteSC rp ep s c = specScanByte rp ep s c := by
  have hcr : s.ri < rp.length ∧ rp.getD s.ri ' ' = c ↔ rp.getD s.ri ' ' = c :=
    ⟨fun hh => hh.2, fun hh => ⟨hr, hh⟩⟩
  have hce : s.ei < ep.length ∧ ep.getD s.ei ' ' = c ↔ ep.getD s.ei ' ' = c :=
    ⟨fun hh => hh.2, fun hh => ⟨he, hh⟩⟩
  constructor
  · unfold scanByte specScanByte
    by_cases hrc : rp.getD s.ri ' ' = c
    · rw [if_pos (hcr.mpr hrc)]
      try dsimp only
      by_cases hec : ep.getD s.ei ' ' = c
      · rw [if_pos (hce.mpr hec)]
        try dsimp only
        rw [specStepIdx_hit rp s.ri c hr hrc, specStepIdx_hit ep s.ei c he hec]
      · rw [if_neg (fun hh => hec (hce.mp hh))]
        try dsimp only
        rw [stepIdx_miss_not_complete ep s.ei c he hec,
            specStepIdx_hit rp s.ri c hr hrc, specStepIdx_miss ep s.ei c he hec,
            Bool.or_false, Bool.or_false]
    · rw [if_neg (fun hh => hrc (hcr.mp hh))]
      try dsimp only
      by_cases hec : ep.getD s.ei ' ' = c
      · rw [if_pos (hce.mpr hec)]
        try dsimp only
        rw [stepIdx_miss_not_complete rp s.ri c hr hrc,
            specStepIdx_miss rp s.ri c hr hrc, specStepIdx_hit ep s.ei c he hec,
            Bool.or_false]
      · rw [if_neg (fun hh => hec (hce.mp hh))]
        try dsimp only
        rw [stepIdx_miss_not_complete rp s.ri c hr hrc,
            stepIdx_miss_not_complete ep s.ei c he hec,
            specStepIdx_miss rp s.ri c hr hrc, specStepIdx_miss ep s.ei c he hec,
            Bool.or_false, Bool.or_false, Bool.or_false]
  · unfold scanByteSC specScanByte
    by_cases hec : ep.getD s.ei ' ' = c
    · rw [if_pos (hce.mpr hec)]
      try dsimp only
      by_cases hrc : rp.getD s.ri ' ' = c
      · rw [if_pos (hcr.mpr hrc)]
        try dsimp only
        rw [specStepIdx_hit rp s.ri c hr hrc, specStepIdx_hit ep s.ei c he hec,
            ScanState.mk.injEq]
        refine ⟨rfl, rfl, ?_, rfl⟩
        cases s.found <;> cases hb1 : decide (s.ri + 1 = rp.length) <;>
          cases hb2 : decide (s.ei + 1 = ep.length) <;> rfl
      · rw [if_neg (fun hh => hrc (hcr.mp hh))]
        try dsimp only
        rw [stepIdx_miss_not_complete rp s.ri c hr hrc,
            specStepIdx_miss rp s.ri c hr hrc, specStepIdx_hit ep s.ei c he hec,
            Bool.or_false]
    · rw [if_neg (fun hh => hec (hce.mp hh))]
      try dsimp only
      by_cases hrc : rp.getD s.ri ' ' = c
      · rw [if_pos (hcr.mpr hrc)]
        try dsimp only
        rw [stepIdx_miss_not_complete ep s.ei c he hec,
            specStepIdx_hit rp s.ri c hr hrc, specStepIdx_miss ep s.ei c he hec,
            Bool.or_false, Bool.or_false]
      · rw [if_neg (fun hh => hrc (hcr.mp hh))]
        try dsimp only
        rw [stepIdx_miss_not_complete rp s.ri c hr hrc,
            stepIdx_miss_not_complete ep s.ei c he hec,
            specStepIdx_miss rp s.ri c hr hrc, specStepIdx_miss ep s.ei c he hec,
            Bool.or_false, Bool.or_false, Bool.or_false]

/-- Witness for `matcher_follows_spec`: the generic OK/ERROR pattern pair,
mid-scan state, on the byte `'O'`. -/
theorem matcher_follows_spec_witness :
    scanByte RESPONSE_OK RESPONSE_ERROR ⟨1, 1, false, false⟩ 'O' =
      specScanByte RESPONSE_OK RESPONSE_ERROR ⟨1, 1, false, false⟩ 'O' ∧
    scanByteSC RESPONSE_OK RESPONSE_ERROR ⟨1, 1, false, false⟩ 'O' =
      specScanByte RESPONSE_OK RESPONSE_ERROR ⟨1, 1, false, false⟩ 'O' :=
  matcher_follows_spec RESPONSE_OK RESPONSE_ERROR ⟨1, 1, false, false⟩ 'O'
    (by decide) (by decide)

/-! ### Lemmas about the dispatcher loops -/

theorem scanByteSC_error_found (rp ep : List Char) (s : ScanState) (c : Char)
    (h : s.error = true → s.found = true) :
    (scanByteSC rp ep s c).error = true → (scanByteSC rp ep s c).found = true := by
  unfold scanByteSC
  by_cases h1 : s.ei < ep.length ∧ ep.getD s.ei ' ' = c
  · rw [if_pos h1]
    dsimp only
    by_cases h2 : s.ri < rp.length ∧ rp.getD s.ri ' ' = c
    · rw [if_pos h2]
      dsimp only
      intro he
      simp only [Bool.or_eq_true] at he ⊢
      tauto
    · rw [if_neg h2]
      dsimp only
      intro he
      simp only [Bool.or_eq_true] at he ⊢
      tauto
  · rw [if_neg h1]
    dsimp only
    by_cases h2 : s.ri < rp.length ∧ rp.getD s.ri ' ' = c
    · rw [if_pos h2]
      dsimp only
      intro he
      simp only [Bool.or_eq_true]
      exact Or.inl (h he)
    · rw [if_neg h2]
      dsimp only
      exact h

theorem cmdLoop_error_found (rp ep : List Char) (destSize : Nat)
    (input : List Char) :
    ∀ (s : ScanState) (n : Nat) (dest bk : List Char),
      (s.error = true → s.found = true) →
      ((cmdLoop rp ep destSize input s n dest bk).1.error = true →
       (cmdLoop rp ep destSize input s n dest bk).1.found = true) := by
  induction input with
  | nil => intro s n dest bk h; simpa [cmdLoop] using h
  | cons c cs ih =>
    intro s n dest bk h
    by_cases hf : s.found = true
    · simp [cmdLoop, hf]
    · have hf' : s.found = false := by simpa using hf
      simp only [cmdLoop, hf', Bool.false_eq_true, if_false]
      exact ih _ _ _ _ (scanByteSC_error_found rp ep s c h)

theorem cmdLoop_consumed_ge (rp ep : List Char) (destSize : Nat)
    (input : List Char) :
    ∀ (s : ScanState) (n : Nat) (dest bk : List Char),
      n ≤ (cmdLoop rp ep destSize input s n dest bk).2.1 := by
  induction input with
  | nil => intro s n dest bk; simp [cmdLoop]
  | cons c cs ih =>
    intro s n dest bk
    by_cases hf : s.found = true
    · simp [cmdLoop, hf]
    · have hf' : s.found = false := by simpa using hf
      simp only [cmdLoop, hf', Bool.false_eq_true, if_false]
      exact Nat.le_trans (Nat.le_succ n) (ih _ _ _ _)

theorem cmdLoop_consumed_zero (rp ep : List Char) (destSize : Nat)
    (input bk : List Char)
    (h : (cmdLoop rp ep destSize input initScan 0 [] bk).2.1 = 0) :
    (cmdLoop rp ep destSize input initScan 0 [] bk).1 = initScan := by
  cases input with
  | nil => rfl
  | cons c cs =>
    exfalso
    have hstep : cmdLoop rp ep destSize (c :: cs) initScan 0 [] bk =
        cmdLoop rp ep destSize cs (scanByteSC rp ep initScan c) 1
          (if ([] : List Char).length < destSize then [] ++ [c] else [])
          (if bk.length < RXBuffSize then bk ++ [sanitizeChar c] else bk) := by
      simp [cmdLoop, initScan]
    rw [hstep] at h
    have := cmdLoop_consumed_ge rp ep destSize cs
      (scanByteSC rp ep initScan c) 1
      (if ([] : List Char).length < destSize then [] ++ [c] else [])
      (if bk.length < RXBuffSize then bk ++ [sanitizeChar c] else bk)
    omega

theorem sanitize_eq_self : ∀ (l : List Char), (∀ c ∈ l, c ≠ NUL) →
    sanitize l = l := by
  intro l
  induction l with
  | nil => intro _; rfl
  | cons c cs ih =>
    intro h
    show sanitizeChar c :: sanitize cs = c :: cs
    rw [show sanitizeChar c = c from if_neg (h c (by simp)),
        ih (fun x hx => h x (by simp [hx]))]

theorem waitLoop_consumed_all (rp ep : List Char) :
    ∀ (input : List Char) (s : ScanState) (n : Nat) (bk : List Char),
      bk.length + input.length ≤ RXBuffSize →
      (waitLoop rp ep input s n bk).2.1 = n + input.length →
      (waitLoop rp ep input s n bk).2.2 = bk ++ sanitize input := by
  intro input
  induction input with
  | nil => intro s n bk _ _; simp [waitLoop, sanitize]
  | cons c cs ih =>
    intro s n bk hcap hcons
    by_cases hf : s.found = true
    · exfalso
      simp only [waitLoop, hf, if_true, List.length_cons] at hcons
      omega
    · have hf' : s.found = false := by simpa using hf
      simp only [waitLoop, hf', Bool.false_eq_true, if_false,
        List.length_cons] at hcons ⊢
      have hlt : bk.length < RXBuffSize := by
        simp only [List.length_cons] at hcap
        omega
      rw [if_pos hlt] at hcons ⊢
      have hcons2 : (waitLoop rp ep cs (scanByte rp ep s c) (n + 1)
          (bk ++ [sanitizeChar c])).2.1 = (n + 1) + cs.length :=
        hcons.trans (by omega)
      have hcap2 : (bk ++ [sanitizeChar c]).length + cs.length ≤ RXBuffSize := by
        simp only [List.length_append, List.length_singleton]
        simp only [List.length_cons] at hcap
        omega
      rw [ih (scanByte rp ep s c) (n + 1) (bk ++ [sanitizeChar c]) hcap2 hcons2]
      simp [sanitize]

/-- C1: a complete recognized notification line that arrives, CR/LF
terminated, on the transport before the success terminator while
`waitForResponse` is awaiting, is — once the transaction returns Success
having consumed the interleaved input — still present in the backlog (it
survives the unconditional prune, which drops the terminator's own lines),
and the next `bufferedPoll` with no further input tokenizes the backlog into
exactly that one line and hands it to `processURCEvent` (the classifier /
decoder dispatch, abstracted as `handler`) exactly once.  The hypotheses
spell out the scenario: the line is nonempty, delimiter- and NUL-free, and
recognized; the terminator's tokens are all pruned away; the interleaved
bytes fit the backlog capacity; the transaction succeeded consuming them
all. -/
theorem notification_survives_transaction
    (notif rp ep : List Char) (handler : List Char → Bool)
    (hne : notif ≠ [])
    (hnd : ∀ c ∈ notif, isDelim c = false)
    (hnn : ∀ c ∈ notif, c ≠ NUL)
    (hrn : ∀ c ∈ rp, c ≠ NUL)
    (hurc : isWantedURC notif = true)
    (hterm : pruneBacklog rp = [])
    (hcap : (notif ++ [CR, LF] ++ rp).length ≤ RXBuffSize)
    (hsucc : (waitForResponse rp ep (notif ++ [CR, LF] ++ rp) []).result =
      LaraErr.success)
    (hall : (waitForResponse rp ep (notif ++ [CR, LF] ++ rp) []).consumed =
      (notif ++ [CR, LF] ++ rp).length) :
    (waitForResponse rp ep (notif ++ [CR, LF] ++ rp) []).backlog =
      notif ++ [CR, LF] ∧
    bufferedPoll handler
      ⟨(waitForResponse rp ep (notif ++ [CR, LF] ++ rp) []).backlog, false⟩ [] =
      (handler notif, [notif], ⟨[], false⟩) := by
  have hclean : ∀ x ∈ notif ++ [CR, LF] ++ rp, x ≠ NUL := by
    intro x hx
    rcases List.mem_append.mp hx with hx1 | hx1
    · rcases List.mem_append.mp hx1 with hx2 | hx2
      · exact hnn x hx2
      · rcases List.mem_cons.mp hx2 with h1 | h1
        · subst h1; decide
        · rcases List.mem_singleton.mp h1 with h2
          subst h2; decide
    · exact hrn x hx1
  have hcons' : (waitLoop rp ep (notif ++ [CR, LF] ++ rp) initScan 0 []).2.1 =
      0 + (notif ++ [CR, LF] ++ rp).length := by
    simpa [waitForResponse] using hall
  have hbk := waitLoop_consumed_all rp ep (notif ++ [CR, LF] ++ rp) initScan 0
    [] (by simpa using hcap) hcons'
  have hsan : sanitize (notif ++ [CR, LF] ++ rp) = notif ++ [CR, LF] ++ rp :=
    sanitize_eq_self _ hclean
  have htok : tokenize (notif ++ [CR, LF] ++ rp) = notif :: tokenize rp := by
    rw [show notif ++ [CR, LF] ++ rp = notif ++ CR :: LF :: rp by simp,
        tokenize_line notif CR (LF :: rp) hne hnd (by decide),
        tokenize_delim_cons LF rp (by decide)]
  have hprune : pruneBacklog (notif ++ [CR, LF] ++ rp) = notif ++ [CR, LF] := by
    rw [pruneBacklog_eq]
    unfold specPrune
    rw [htok, List.filter_cons, if_pos hurc, specPrune_nil_filter rp hterm]
    simp
  have hbacklog : (waitForResponse rp ep (notif ++ [CR, LF] ++ rp) []).backlog =
      notif ++ [CR, LF] := by
    show pruneBacklog
      ((waitLoop rp ep (notif ++ [CR, LF] ++ rp) initScan 0 []).2.2) = _
    rw [hbk, List.nil_append, hsan, hprune]
  refine ⟨hbacklog, ?_⟩
  rw [hbacklog]
  have htokb : tokenize (notif ++ [CR, LF]) = [notif] := by
    rw [show notif ++ [CR, LF] = notif ++ CR :: LF :: [] by simp,
        tokenize_line notif CR [LF] hne hnd (by decide),
        tokenize_delim_cons LF [] (by decide)]
    rfl
  simp [bufferedPoll, htokb, sanitize, hne]

/-- Witness for `notification_survives_transaction`: a `+CREG:` registration
notification interleaved before the generic `"\nOK\r\n"` terminator. -/
theorem notification_survives_transaction_witness :
    (waitForResponse RESPONSE_OK RESPONSE_ERROR
        ("+CREG: 5".toList ++ [CR, LF] ++ RESPONSE_OK) []).backlog =
      "+CREG: 5".toList ++ [CR, LF] ∧
    bufferedPoll (fun _ => true)
      ⟨(waitForResponse RESPONSE_OK RESPONSE_ERROR
          ("+CREG: 5".toList ++ [CR, LF] ++ RESPONSE_OK) []).backlog, false⟩ [] =
      (true, ["+CREG: 5".toList], ⟨[], false⟩) :=
  notification_survives_transaction "+CREG: 5".toList RESPONSE_OK
    RESPONSE_ERROR (fun _ => true) (by decide) (by decide) (by decide)
    (by decide) (by decide) (by decide) (by decide) (by decide) (by decide)

/-- C2 (amended): the await half of `sendCommandWithResponse` follows the
claimed four-way taxonomy — exactly one of Success (success pattern
completed, error pattern not), ProtocolError (error pattern completed),
NoResponse (if and only if zero bytes were observed before the timeout) and
UnexpectedResponse (if and only if at least one byte was observed and
neither pattern completed).  (`waitForResponse`, by contrast, folds the
UnexpectedResponse case into NoResponse — see the counterexample.) -/
theorem sendCommandWithResponse_result_taxonomy (expected : Option (List Char))
    (input bk0 : List Char) (destSize : Nat) :
    ((sendCommandWithResponse expected input bk0 destSize).result =
        LaraErr.success ∨
     (sendCommandWithResponse expected input bk0 destSize).result =
        LaraErr.error ∨
     (sendCommandWithResponse expected input bk0 destSize).result =
        LaraErr.noResponse ∨
     (sendCommandWithResponse expected input bk0 destSize).result =
        LaraErr.unexpectedResponse) ∧
    ((sendCommandWithResponse expected input bk0 destSize).result =
        LaraErr.noResponse ↔
      (sendCommandWithResponse expected input bk0 destSize).consumed = 0) ∧
    ((sendCommandWithResponse expected input bk0 destSize).result =
        LaraErr.unexpectedResponse ↔
      0 < (sendCommandWithResponse expected input bk0 destSize).consumed ∧
      (cmdRun expected input bk0 destSize).1.found = false) ∧
    ((sendCommandWithResponse expected input bk0 destSize).result =
        LaraErr.error ↔
      (cmdRun expected input bk0 destSize).1.error = true) ∧
    ((sendCommandWithResponse expected input bk0 destSize).result =
        LaraErr.success ↔
      (cmdRun expected input bk0 destSize).1.found = true ∧
      (cmdRun expected input bk0 destSize).1.error = false) := by
  have herrfound : (cmdRun expected input bk0 destSize).1.error = true →
      (cmdRun expected input bk0 destSize).1.found = true :=
    cmdLoop_error_found _ _ _ input initScan 0 [] bk0 (by intro h; simp [initScan] at h)
  have hzero : (cmdRun expected input bk0 destSize).2.1 = 0 →
      (cmdRun expected input bk0 destSize).1 = initScan :=
    cmdLoop_consumed_zero _ _ _ input bk0
  simp only [sendCommandWithResponse]
  by_cases hf : (cmdRun expected input bk0 destSize).1.found = true
  · by_cases he : (cmdRun expected input bk0 destSize).1.error = true
    · simp only [hf, he, if_true]
      refine ⟨by tauto, ?_, by simp [hf], by simp, by simp [he]⟩
      constructor
      · intro h; exact absurd h (by simp)
      · intro h
        have := hzero h
        rw [this] at hf
        simp [initScan] at hf
    · have he' : (cmdRun expected input bk0 destSize).1.error = false := by
        simpa using he
      simp only [hf, he', if_true, Bool.false_eq_true, if_false]
      refine ⟨by tauto, ?_, by simp [hf], by simp [he'], by simp [hf, he']⟩
      constructor
      · intro h; exact absurd h (by simp)
      · intro h
        have := hzero h
        rw [this] at hf
        simp [initScan] at hf
  · have hf' : (cmdRun expected input bk0 destSize).1.found = false := by
      simpa using hf
    have he' : (cmdRun expected input bk0 destSize).1.error = false := by
      cases he : (cmdRun expected input bk0 destSize).1.error
      · rfl
      · exact absurd (herrfound he) (by simp [hf'])
    by_cases hn : (cmdRun expected input bk0 destSize).2.1 = 0
    · simp only [hf', Bool.false_eq_true, if_false, hn, if_true]
      exact ⟨by tauto, by simp [hn], by simp, by simp [he'], by simp [hf']⟩
    · simp only [hf', Bool.false_eq_true, if_false, hn, if_false]
      exact ⟨by tauto, by simp [hn], by simp [hf']; omega,
             by simp [he'], by simp [hf']⟩

end LaraR6
